import Mathlib

/-!
Shallow embedding of the shard-level storage engine (`shard.go`) of this
repository: the point-header codec, the `writeSeries` batch writer running
inside one store transaction, the shard message processor loop, the shard
open/close lifecycle, and `ShardGroup` routing and containment.

The embedded transactional key-value store (bolt) is an external collaborator;
it is modelled as a two-level finite map: bucket name (byte string) to bucket,
bucket being key (byte string) to value (byte string).  A transactional
update that fails rolls back, which is modelled by returning the original
store alongside the error.  Byte strings are `List Nat` with each element a
byte value.
-/

namespace Influx

/-- Byte strings: the model of Go `[]byte` values (each element is one byte). -/
abbrev Bytes := List Nat

/-- A bucket of the embedded store: a map from key bytes to value bytes. -/
abbrev Bucket := Bytes → Option Bytes

/-- The contents of one shard's embedded store: a map from bucket name to bucket. -/
abbrev Store := Bytes → Option Bucket

/-- The store with no buckets at all. -/
def emptyStore : Store := fun _ => none

/-- Read key `k` of bucket `n`: `none` when the bucket or the key is absent. -/
def sLookup (σ : Store) (n k : Bytes) : Option Bytes :=
  match σ n with
  | none => none
  | some b => b k

/-- `Put` on one bucket: upsert of key `k` to value `v`. -/
def bucketPut (b : Bucket) (k v : Bytes) : Bucket :=
  fun q => if q = k then some v else b q

/-- `tx.CreateBucketIfNotExists(n)`: keep the bucket when present, otherwise
create it empty. -/
def storeCreateBucketIfNotExists (σ : Store) (n : Bytes) : Store :=
  fun q => if q = n then some ((σ n).getD (fun _ => none)) else σ q

/-- `tx.CreateBucketIfNotExists(n)` followed by `b.Put(k, v)` on the returned
bucket, as one step on the store. -/
def storeCreatePut (σ : Store) (n k v : Bytes) : Store :=
  fun q => if q = n then some (bucketPut ((σ n).getD (fun _ => none)) k v) else σ q

/-- `tx.Bucket(n).Put(k, v)`: `none` models the nil-bucket dereference when the
bucket does not exist (a Go panic inside the transaction). -/
def storePutExisting (σ : Store) (n k v : Bytes) : Option Store :=
  match σ n with
  | none => none
  | some b => some (fun q => if q = n then some (bucketPut b k v) else σ q)

/-- Bytes of the bucket name `"values"`. -/
def valuesName : Bytes := [118, 97, 108, 117, 101, 115]

/-- Bytes of the bucket name `"meta"`. -/
def metaName : Bytes := [109, 101, 116, 97]

/-- Bytes of the meta key `"index"`. -/
def indexKey : Bytes := [105, 110, 100, 101, 120]

/-- `pointHeaderSize` of `shard.go`: seriesID + payload length + timestamp. -/
def pointHeaderSize : Nat := 4 + 4 + 8

/-- Modelled from the spec: the 4-byte big-endian series-id encoder `u32tob`
(a key-encoding helper of this repository defined outside `shard.go`). -/
def u32tob (x : Nat) : Bytes :=
  [x / 16777216 % 256, x / 65536 % 256, x / 256 % 256, x % 256]

/-- Modelled from the spec: the 8-byte big-endian encoder `u64tob` for
timestamps and replication indices (defined outside `shard.go`). -/
def u64tob (x : Nat) : Bytes :=
  [x / 72057594037927936 % 256, x / 281474976710656 % 256,
   x / 1099511627776 % 256, x / 4294967296 % 256,
   x / 16777216 % 256, x / 65536 % 256, x / 256 % 256, x % 256]

/-- Modelled from the spec: the big-endian decoder `btou64` (defined outside
`shard.go`); in this model it is only applied to 8-byte values, where a
big-endian fold is exactly `binary.BigEndian.Uint64`. -/
def btou64 (b : Bytes) : Nat :=
  b.foldl (fun acc c => acc * 256 + c) 0

/-- Go conversion `uint64(t)` of an `int64` timestamp: two's complement. -/
def intToU64 (t : Int) : Nat := (t % 18446744073709551616).toNat

/-- Go conversion `int64(u)` of a `uint64`: two's complement. -/
def int64OfU64 (u : Nat) : Int :=
  if u < 9223372036854775808 then (u : Int) else (u : Int) - 18446744073709551616

/-- `marshalPointHeader`: 4-byte series id, 4-byte payload length, 8-byte
timestamp, all big-endian. -/
def marshalPointHeader (seriesID payloadLength : Nat) (timestamp : Int) : Bytes :=
  u32tob seriesID ++ u32tob payloadLength ++ u64tob (intToU64 timestamp)

/-- `unmarshalPointHeader`: decode a 16-byte header into
(series id, payload length, timestamp). -/
def unmarshalPointHeader (b : Bytes) : Nat × Nat × Int :=
  (btou64 (b.take 4), btou64 ((b.drop 4).take 4), int64OfU64 (btou64 ((b.drop 8).take 8)))

/-- The bucket name the leading frame of the batch writes to:
`u32tob(seriesID)` of its decoded header. -/
def frameBucket (batch : Bytes) : Bytes :=
  u32tob (unmarshalPointHeader (batch.take pointHeaderSize)).1

/-- The store key the leading frame writes: `u64tob(uint64(timestamp))` of its
decoded header. -/
def frameKey (batch : Bytes) : Bytes :=
  u64tob (intToU64 (unmarshalPointHeader (batch.take pointHeaderSize)).2.2)

/-- The declared payload length of the leading frame's decoded header. -/
def framePayloadLen (batch : Bytes) : Nat :=
  (unmarshalPointHeader (batch.take pointHeaderSize)).2.1

/-- The payload bytes of the leading frame. -/
def frameData (batch : Bytes) : Bytes :=
  (batch.drop pointHeaderSize).take (framePayloadLen batch)

/-- The batch remaining after the leading frame (header and payload). -/
def frameTail (batch : Bytes) : Bytes :=
  (batch.drop pointHeaderSize).drop (framePayloadLen batch)

/-- The frame-writing loop of `writeSeries`, inside the update transaction:
parse a header, bounds-check the declared payload length against the remaining
bytes (through Go's `uint32(len(batch))` conversion), create-or-reuse the
per-series bucket and upsert (timestamp, data), advance, and stop when the
batch is exactly consumed.  `none` is the invalid-point-buffer failure.  The
`fuel` argument makes the recursion structural; each iteration consumes at
least 16 bytes, so `fuel = batch.length` (see `writeFrames`) never runs out
on a batch the loop accepts. -/
def writeFramesAux : Nat → Bytes → Store → Option Store
  | 0, _, _ => none
  | fuel + 1, batch, σ =>
    if pointHeaderSize > batch.length then none
    else if framePayloadLen batch > (batch.drop pointHeaderSize).length % 4294967296 then none
    else if (frameTail batch).length = 0 then
      some (storeCreatePut σ (frameBucket batch) (frameKey batch) (frameData batch))
    else
      writeFramesAux fuel (frameTail batch)
        (storeCreatePut σ (frameBucket batch) (frameKey batch) (frameData batch))

/-- The frame-writing loop of `writeSeries` at its sufficient fuel. -/
def writeFrames (batch : Bytes) (σ : Store) : Option Store :=
  writeFramesAux batch.length batch σ

/-- Whether the batch parses under the wire format (the loop of `writeSeries`
reaches its final break instead of an invalid-point-buffer failure); same
recursion as `writeFramesAux`, store-independent. -/
def parseOkAux : Nat → Bytes → Bool
  | 0, _ => false
  | fuel + 1, batch =>
    if pointHeaderSize > batch.length then false
    else if framePayloadLen batch > (batch.drop pointHeaderSize).length % 4294967296 then false
    else if (frameTail batch).length = 0 then true
    else parseOkAux fuel (frameTail batch)

/-- Whether a batch is well-formed for `writeSeries`. -/
def parseOk (batch : Bytes) : Bool := parseOkAux batch.length batch

/-- The value of the last frame of the batch addressed to bucket `n`, key `k`
(last write wins); same recursion as `writeFramesAux`. -/
def lastFrameWriteAux : Nat → Bytes → Bytes → Bytes → Option Bytes
  | 0, _, _, _ => none
  | fuel + 1, batch, n, k =>
    if pointHeaderSize > batch.length then none
    else if framePayloadLen batch > (batch.drop pointHeaderSize).length % 4294967296 then none
    else
      match (if (frameTail batch).length = 0 then none
             else lastFrameWriteAux fuel (frameTail batch) n k) with
      | some v => some v
      | none =>
        if frameBucket batch = n ∧ frameKey batch = k then some (frameData batch)
        else none

/-- The last write of the batch at bucket `n`, key `k`, at sufficient fuel. -/
def lastFrameWrite (batch : Bytes) (n k : Bytes) : Option Bytes :=
  lastFrameWriteAux batch.length batch n k

/-- Whether some frame of the batch writes into bucket `n`; same recursion as
`writeFramesAux`. -/
def touchesAux : Nat → Bytes → Bytes → Bool
  | 0, _, _ => false
  | fuel + 1, batch, n =>
    if pointHeaderSize > batch.length then false
    else if framePayloadLen batch > (batch.drop pointHeaderSize).length % 4294967296 then false
    else
      decide (frameBucket batch = n) ||
        (if (frameTail batch).length = 0 then false else touchesAux fuel (frameTail batch) n)

/-- Whether the batch writes into bucket `n`, at sufficient fuel. -/
def touches (batch : Bytes) (n : Bytes) : Bool := touchesAux batch.length batch n

/-- The error outcomes of `writeSeries`. -/
inductive WriteError where
  | invalidPointBuffer
  | missingMetaBucket
deriving DecidableEq

/-- `writeSeries`: one update transaction that writes every frame of the batch
and then persists the replication index under `meta/index`.  On any failure
the transaction rolls back, modelled by returning the original store together
with the error (`missingMetaBucket` stands for the nil-bucket panic that bolt
turns into a rollback). -/
def writeSeries (σ : Store) (index : Nat) (batch : Bytes) : Store × Option WriteError :=
  match writeFrames batch σ with
  | none => (σ, some WriteError.invalidPointBuffer)
  | some σ2 =>
    match storePutExisting σ2 metaName indexKey (u64tob index) with
    | none => (σ, some WriteError.missingMetaBucket)
    | some σ3 => (σ3, none)

/-- A broker message as delivered on the `MessagingConn` channel. -/
structure Message where
  index : Nat
  type : Nat
  data : Bytes

/-- Modelled from the spec: the single message type this core recognizes,
"write raw series batch" (its numeric value is defined outside `shard.go`
and is irrelevant here). -/
def writeRawSeriesMessageType : Nat := 0

/-- The state the processor loop acts on: an open shard's in-memory replicated
index and the contents of its store. -/
structure ProcState where
  index : Nat
  store : Store

/-- One iteration of `processor` on a received message: discard stale indices,
apply a write-series batch through `writeSeries`, then advance the in-memory
index; `none` models the two panics (write failure, unrecognized type). -/
def processMessage (s : ProcState) (m : Message) : Option ProcState :=
  if m.index < s.index then some s
  else
    if m.type = writeRawSeriesMessageType then
      match writeSeries s.store m.index m.data with
      | (σ2, none) => some { index := m.index, store := σ2 }
      | (_, some _) => none
    else none

/-- The processor loop over a finite prefix of the delivered message stream. -/
def processMessages : ProcState → List Message → Option ProcState
  | s, [] => some s
  | s, m :: rest =>
    match processMessage s m with
    | none => none
    | some s2 => processMessages s2 rest

/-- The store handle held by a shard: the store's contents plus whether the
underlying file handle is still open (`Close` closes the handle but the
shard's field keeps referring to it). -/
structure StoreHandle where
  contents : Store
  isOpen : Bool

/-- The `Shard` struct: identity, highest replicated index, and the store
field (`none` models the nil pointer of a never-opened shard). -/
structure Shard where
  ID : Nat
  index : Nat
  store : Option StoreHandle

/-- `newShard`: a new initialized shard. -/
def newShard : Shard := { ID := 0, index := 0, store := none }

/-- `close`: closes the underlying store when the field is set, never clears
the field, and always returns nil (the second component is the returned
error). -/
def shardClose (s : Shard) : Shard × Option String :=
  match s.store with
  | none => (s, none)
  | some h => ({ s with store := some { h with isOpen := false } }, none)

/-- The environment a call of `open` runs against: the outcome of
`bolt.Open` (the opened store's contents, or a failure), the store's own
commit failure for the init transaction (whose closure itself always returns
nil), and the result of `MessagingConn.Open` per argument pair. -/
structure OpenEnv where
  boltOpen : Except String Store
  initErr : Option String
  connOpen : Nat → Bool → Option String

/-- What a call of `open` produced: the shard afterwards, the returned error,
and the trace of `conn.Open` calls made. -/
structure OpenOutcome where
  shard : Shard
  err : Option String
  connCalls : List (Nat × Bool)

/-- The init transaction of `open`: ensure the `values` and `meta` buckets
exist and recover the highest replicated index from `meta/index` (0 when the
key is absent or empty). -/
def recoverIndex (σ : Store) : Store × Nat :=
  let σ1 := storeCreateBucketIfNotExists σ valuesName
  let σ2 := storeCreateBucketIfNotExists σ1 metaName
  let idx :=
    match sLookup σ2 metaName indexKey with
    | some buf => if buf.length > 0 then btou64 buf else 0
    | none => 0
  (σ2, idx)

/-- `open`: reject an already-open shard; acquire the store; run the init
transaction (on a commit failure the transaction rolls back, the in-memory
index keeps the value the closure assigned, and the store is closed before
returning); open the broker connection at the recovered index with
`fromStart = true` (on failure, close the store before returning); on
success the processor task starts. -/
def shardOpen (s : Shard) (env : OpenEnv) : OpenOutcome :=
  match s.store with
  | some _ => { shard := s, err := some "shard already open", connCalls := [] }
  | none =>
    match env.boltOpen with
    | Except.error e => { shard := s, err := some e, connCalls := [] }
    | Except.ok σ0 =>
      let s1 : Shard := { s with store := some { contents := σ0, isOpen := true } }
      let r := recoverIndex σ0
      match env.initErr with
      | some e =>
        let s2 : Shard := { s1 with index := r.2 }
        { shard := (shardClose s2).1, err := some ("init: " ++ e), connCalls := [] }
      | none =>
        let s2 : Shard :=
          { s1 with index := r.2, store := some { contents := r.1, isOpen := true } }
        match env.connOpen r.2 true with
        | some e =>
          { shard := (shardClose s2).1, err := some ("open shard conn: " ++ e),
            connCalls := [(r.2, true)] }
        | none => { shard := s2, err := none, connCalls := [(r.2, true)] }

/-- The `ShardGroup` struct: a time window and its member shards (times are
modelled as integers, with `Before`/`After` the strict orders). -/
structure ShardGroup where
  ID : Nat
  StartTime : Int
  EndTime : Int
  Shards : List Shard

/-- Modelled from the spec: `timeBetweenInclusive t min max` is whether `t`
falls within `[min, max]` inclusive (a helper of this repository defined
outside `shard.go`). -/
def timeBetweenInclusive (t min max : Int) : Bool :=
  decide (min ≤ t) && decide (t ≤ max)

/-- `Contains`: whether the group holds data for the time range `[min, max]`. -/
def ShardGroup.Contains (g : ShardGroup) (min max : Int) : Bool :=
  timeBetweenInclusive g.StartTime min max ||
    timeBetweenInclusive g.EndTime min max ||
    (decide (g.StartTime < min) && decide (g.EndTime > max))

/-- `ShardBySeriesID`: the shard a series is assigned to, at position
`seriesID mod len(shards)`; `none` models the Go panic on an empty group. -/
def ShardGroup.ShardBySeriesID (g : ShardGroup) (seriesID : Nat) : Option Shard :=
  g.Shards[seriesID % g.Shards.length]?

/-! Concrete instances used to evaluate the theorems below on closed inputs. -/

/-- A store holding only an empty `meta` bucket. -/
def σmetaEx : Store := fun n => if n = metaName then some (fun _ => none) else none

/-- A well-formed one-frame batch: series 7, timestamp 42, payload `[1,2,3]`. -/
def batchGoodEx : Bytes := marshalPointHeader 7 3 42 ++ [1, 2, 3]

/-- A malformed batch: its second frame declares payload length 100 with only
one byte remaining. -/
def batchBadEx : Bytes :=
  marshalPointHeader 7 3 42 ++ [1, 2, 3] ++ marshalPointHeader 9 100 1 ++ [5]

/-- A write message carrying `batchGoodEx` at index 5. -/
def msgEx : Message := { index := 5, type := writeRawSeriesMessageType, data := batchGoodEx }

/-- An open-shard processor state at index 0 over `σmetaEx`. -/
def procEx : ProcState := { index := 0, store := σmetaEx }

/-- The processor state reached from `procEx` by applying `msgEx`. -/
def procEx2 : ProcState := { index := 5, store := (writeSeries σmetaEx 5 batchGoodEx).1 }

/-- A processor state already ahead of `staleMsgEx`. -/
def staleProcEx : ProcState := { index := 5, store := σmetaEx }

/-- A stale message: index 3, below `staleProcEx.index`. -/
def staleMsgEx : Message := { index := 3, type := writeRawSeriesMessageType, data := [] }

/-- A shard group covering `[100, 200]` with no member shards. -/
def groupEx : ShardGroup := { ID := 1, StartTime := 100, EndTime := 200, Shards := [] }

/-- A closed shard with id 10. -/
def shardEx0 : Shard := { ID := 10, index := 0, store := none }

/-- A closed shard with id 11. -/
def shardEx1 : Shard := { ID := 11, index := 0, store := none }

/-- A shard group with two member shards. -/
def groupEx2 : ShardGroup := { ID := 2, StartTime := 0, EndTime := 1, Shards := [shardEx0, shardEx1] }

/-- A store whose `meta` bucket maps `index` to the encoding of 42. -/
def σmetaIdxEx : Store :=
  fun n =>
    if n = metaName then some (fun k => if k = indexKey then some (u64tob 42) else none)
    else none

/-- An environment where every external step succeeds. -/
def envEx : OpenEnv :=
  { boltOpen := Except.ok σmetaIdxEx, initErr := none, connOpen := fun _ _ => none }

/-- An environment whose init transaction fails to commit. -/
def envFailEx : OpenEnv :=
  { boltOpen := Except.ok σmetaIdxEx, initErr := some "disk full", connOpen := fun _ _ => none }

/-- A shard already holding an open store handle. -/
def openShardEx : Shard :=
  { ID := 12, index := 0, store := some { contents := σmetaEx, isOpen := true } }

/-! Codec lemmas. -/

/-- Big-endian round trip for 4-byte values. -/
theorem btou64_u32tob (x : Nat) (h : x < 4294967296) : btou64 (u32tob x) = x := by
  simp only [btou64, u32tob, List.foldl]
  omega

/-- Big-endian round trip for 8-byte values. -/
theorem btou64_u64tob (x : Nat) (h : x < 18446744073709551616) : btou64 (u64tob x) = x := by
  simp only [btou64, u64tob, List.foldl]
  omega

/-- The `uint64` image of a timestamp is below `2^64`. -/
theorem intToU64_lt (t : Int) : intToU64 t < 18446744073709551616 := by
  unfold intToU64
  omega

/-- Two's-complement round trip on the `int64` range. -/
theorem int64OfU64_intToU64 (t : Int) (h1 : -9223372036854775808 ≤ t)
    (h2 : t < 9223372036854775808) : int64OfU64 (intToU64 t) = t := by
  unfold int64OfU64 intToU64
  split <;> omega

/-- C5: for every `seriesID : uint32`, `payloadLength : uint32` and
`timestamp : int64` (negative timestamps included), `marshalPointHeader`
returns exactly 16 bytes, and `unmarshalPointHeader` applied to those bytes
returns the original triple; both functions are total Lean functions. -/
theorem pointHeader_roundtrip :
    ∀ (seriesID payloadLength : Nat) (timestamp : Int),
      seriesID < 4294967296 → payloadLength < 4294967296 →
      -9223372036854775808 ≤ timestamp → timestamp < 9223372036854775808 →
      (marshalPointHeader seriesID payloadLength timestamp).length = 16 ∧
        unmarshalPointHeader (marshalPointHeader seriesID payloadLength timestamp) =
          (seriesID, payloadLength, timestamp) := by
  intro sid pl ts h1 h2 h3 h4
  refine ⟨rfl, ?_⟩
  have e : unmarshalPointHeader (marshalPointHeader sid pl ts) =
      (btou64 (u32tob sid), btou64 (u32tob pl), int64OfU64 (btou64 (u64tob (intToU64 ts)))) := rfl
  rw [e, btou64_u32tob sid h1, btou64_u32tob pl h2, btou64_u64tob _ (intToU64_lt ts),
    int64OfU64_intToU64 ts h3 h4]

/-- Witness for C5 at `(7, 3, -5)`. -/
theorem pointHeader_roundtrip_witness :
    (marshalPointHeader 7 3 (-5)).length = 16 ∧
      unmarshalPointHeader (marshalPointHeader 7 3 (-5)) = (7, 3, -5) :=
  pointHeader_roundtrip 7 3 (-5) (by decide) (by decide) (by decide) (by decide)

/-- C6: `Contains` is true exactly when the group's start or end lies within
`[min, max]` inclusive or the group's window strictly encloses `[min, max]`;
on a group with start 100 and end 200 the four sample queries of the spec
evaluate as stated. -/
theorem shardGroup_contains_spec :
    (∀ (g : ShardGroup) (tmin tmax : Int),
        g.Contains tmin tmax = true ↔
          (tmin ≤ g.StartTime ∧ g.StartTime ≤ tmax) ∨
            (tmin ≤ g.EndTime ∧ g.EndTime ≤ tmax) ∨
            (g.StartTime < tmin ∧ tmax < g.EndTime)) ∧
      (∀ g : ShardGroup, g.StartTime = 100 → g.EndTime = 200 →
        g.Contains 150 160 = true ∧ g.Contains 50 90 = false ∧
          g.Contains 50 150 = true ∧ g.Contains 120 180 = true) := by
  constructor
  · intro g tmin tmax
    simp only [ShardGroup.Contains, timeBetweenInclusive, Bool.or_eq_true, Bool.and_eq_true,
      decide_eq_true_eq, gt_iff_lt]
    tauto
  · intro g h1 h2
    simp [ShardGroup.Contains, timeBetweenInclusive, h1, h2]

/-- Witness for C6 on a group with start 100 and end 200. -/
theorem shardGroup_contains_spec_witness :
    groupEx.Contains 150 160 = true ∧ groupEx.Contains 50 90 = false ∧
      groupEx.Contains 50 150 = true ∧ groupEx.Contains 120 180 = true :=
  shardGroup_contains_spec.2 groupEx rfl rfl

/-- C7: on a group with a non-empty shard sequence of length `n`,
`ShardBySeriesID s` is exactly the shard at position `s mod n`, and repeated
calls on the unchanged group return the same shard. -/
theorem shardBySeriesID_routing :
    ∀ (g : ShardGroup) (s : Nat) (h : 0 < g.Shards.length),
      g.ShardBySeriesID s =
          some (g.Shards.get ⟨s % g.Shards.length, Nat.mod_lt s h⟩) ∧
        g.ShardBySeriesID s = g.ShardBySeriesID s := by
  intro g s h
  refine ⟨?_, rfl⟩
  rw [ShardGroup.ShardBySeriesID, List.getElem?_eq_getElem (Nat.mod_lt s h)]
  simp

/-- Witness for C7 on a two-shard group at series id 5. -/
theorem shardBySeriesID_routing_witness :
    groupEx2.ShardBySeriesID 5 =
        some (groupEx2.Shards.get ⟨5 % groupEx2.Shards.length, Nat.mod_lt 5 (by decide)⟩) ∧
      groupEx2.ShardBySeriesID 5 = groupEx2.ShardBySeriesID 5 :=
  shardBySeriesID_routing groupEx2 5 (by decide)

/-- C9: `writeSeries` on an empty batch fails with the invalid-point-buffer
error and leaves the store (in particular `meta/index`) untouched. -/
theorem writeSeries_empty_batch_rejected :
    ∀ (σ : Store) (index : Nat),
      writeSeries σ index [] = (σ, some WriteError.invalidPointBuffer) := by
  intro σ index
  rfl

/-! Processor-step lemmas. -/

/-- A processor step either discards a stale message unchanged or applies the
batch through `writeSeries` and advances to the message's index. -/
theorem processMessage_cases (s s2 : ProcState) (m : Message)
    (h : processMessage s m = some s2) :
    (s2 = s ∧ m.index < s.index) ∨
      (¬m.index < s.index ∧ m.type = writeRawSeriesMessageType ∧
        ∃ σ2, writeSeries s.store m.index m.data = (σ2, none) ∧
          s2 = { index := m.index, store := σ2 }) := by
  unfold processMessage at h
  by_cases hst : m.index < s.index
  · rw [if_pos hst] at h
    exact Or.inl ⟨(Option.some.injEq _ _ ▸ h).symm, hst⟩
  · rw [if_neg hst] at h
    by_cases ht : m.type = writeRawSeriesMessageType
    · rw [if_pos ht] at h
      rcases hw : writeSeries s.store m.index m.data with ⟨σ2, e⟩
      rw [hw] at h
      cases e with
      | none =>
        refine Or.inr ⟨hst, ht, σ2, rfl, ?_⟩
        exact (Option.some.injEq _ _ ▸ h).symm
      | some e => simp at h
    · rw [if_neg ht] at h
      simp at h

/-- A successful processor step never decreases the index. -/
theorem processMessage_index_le (s s2 : ProcState) (m : Message)
    (h : processMessage s m = some s2) : s.index ≤ s2.index := by
  rcases processMessage_cases s s2 m h with ⟨he, _⟩ | ⟨hge, _, _, _, he⟩
  · rw [he]
  · rw [he]
    exact Nat.le_of_not_lt hge

/-- Index monotonicity over any processed message sequence. -/
theorem processMessages_index_le (ms : List Message) :
    ∀ (s s2 : ProcState), processMessages s ms = some s2 → s.index ≤ s2.index := by
  induction ms with
  | nil =>
    intro s s2 h
    simp only [processMessages] at h
    rw [Option.some.injEq] at h
    rw [h]
  | cons m rest ih =>
    intro s s2 h
    simp only [processMessages] at h
    rcases hpm : processMessage s m with _ | s1
    · rw [hpm] at h
      simp at h
    · rw [hpm] at h
      exact Nat.le_trans (processMessage_index_le s s1 m hpm) (ih s1 s2 h)

/-- C3: in the consumer loop the shard's index is monotonically
non-decreasing: each step either leaves the state unchanged on a stale
message or sets the index to the processed message's index, which is at
least the current one; over any message sequence the index never decreases. -/
theorem processor_index_monotone :
    (∀ (s s2 : ProcState) (m : Message), processMessage s m = some s2 →
        ((s2 = s ∧ m.index < s.index) ∨
            (s2.index = m.index ∧ s.index ≤ m.index)) ∧
          s.index ≤ s2.index) ∧
      ∀ (ms : List Message) (s s2 : ProcState),
        processMessages s ms = some s2 → s.index ≤ s2.index := by
  constructor
  · intro s s2 m h
    refine ⟨?_, processMessage_index_le s s2 m h⟩
    rcases processMessage_cases s s2 m h with ⟨he, hlt⟩ | ⟨hge, _, σ2, _, he⟩
    · exact Or.inl ⟨he, hlt⟩
    · refine Or.inr ⟨?_, by omega⟩
      rw [he]
  · exact fun ms => processMessages_index_le ms

/-- Witness for C3: a stale message leaves the state and index unchanged. -/
theorem processor_index_monotone_witness :
    ((staleProcEx = staleProcEx ∧ staleMsgEx.index < staleProcEx.index) ∨
        (staleProcEx.index = staleMsgEx.index ∧ staleProcEx.index ≤ staleMsgEx.index)) ∧
      staleProcEx.index ≤ staleProcEx.index :=
  processor_index_monotone.1 staleProcEx staleProcEx staleMsgEx rfl

/-! Store-operation lemmas. -/

/-- Reading after a create-and-put: the written key returns the written value,
everything else is unchanged. -/
theorem sLookup_storeCreatePut (σ : Store) (n k v n2 k2 : Bytes) :
    sLookup (storeCreatePut σ n k v) n2 k2 =
      if n2 = n ∧ k2 = k then some v else sLookup σ n2 k2 := by
  by_cases hn : n2 = n
  · subst hn
    by_cases hk : k2 = k
    · subst hk
      simp [sLookup, storeCreatePut, bucketPut]
    · simp only [sLookup, storeCreatePut, bucketPut, if_pos rfl, hk, and_false, if_false,
        if_neg hk]
      cases hσ : σ n2 <;> simp [bucketPut, hk]
  · have hc : ¬(n2 = n ∧ k2 = k) := fun hb => hn hb.1
    simp [sLookup, storeCreatePut, hn, hc]

/-- Bucket presence after a create-and-put. -/
theorem isSome_storeCreatePut (σ : Store) (n k v n2 : Bytes) :
    ((storeCreatePut σ n k v) n2).isSome = (decide (n2 = n) || (σ n2).isSome) := by
  by_cases hn : n2 = n <;> simp [storeCreatePut, hn]

/-- `storePutExisting` on a present bucket. -/
theorem storePutExisting_some (σ : Store) (n k v : Bytes) (b : Bucket) (h : σ n = some b) :
    storePutExisting σ n k v =
      some (fun q => if q = n then some (bucketPut b k v) else σ q) := by
  unfold storePutExisting
  rw [h]

/-- Two stores with the same bucket domain and the same reads everywhere are
equal. -/
theorem store_ext (α β : Store)
    (h1 : ∀ n, (α n).isSome = (β n).isSome)
    (h2 : ∀ n k, sLookup α n k = sLookup β n k) : α = β := by
  funext n
  cases hα : α n with
  | none =>
    cases hβ : β n with
    | none => rfl
    | some b =>
      have hc := h1 n
      rw [hα, hβ] at hc
      simp at hc
  | some a =>
    cases hβ : β n with
    | none =>
      have hc := h1 n
      rw [hα, hβ] at hc
      simp at hc
    | some b =>
      have hab : a = b := by
        funext k
        have hc := h2 n k
        simp only [sLookup, hα, hβ] at hc
        exact hc
      rw [hab]

/-! Characterization of the frame-writing loop. -/

/-- The loop succeeds exactly when the batch parses, for every store. -/
theorem writeFramesAux_isSome (f : Nat) :
    ∀ (b : Bytes) (σ : Store), (writeFramesAux f b σ).isSome = parseOkAux f b := by
  induction f with
  | zero => intro b σ; rfl
  | succ f ih =>
    intro b σ
    simp only [writeFramesAux, parseOkAux]
    split
    · rfl
    · split
      · rfl
      · split
        · rfl
        · exact ih _ _

/-- Reads after the loop: the last frame addressed to (bucket, key) wins, and
untouched (bucket, key) pairs read as before. -/
theorem sLookup_writeFramesAux (f : Nat) :
    ∀ (b : Bytes) (σ out : Store), writeFramesAux f b σ = some out →
      ∀ n k, sLookup out n k =
        match lastFrameWriteAux f b n k with
        | some v => some v
        | none => sLookup σ n k := by
  induction f with
  | zero =>
    intro b σ out h
    exact absurd h (by simp [writeFramesAux])
  | succ f ih =>
    intro b σ out h n k
    simp only [writeFramesAux] at h
    simp only [lastFrameWriteAux]
    by_cases h1 : pointHeaderSize > b.length
    · rw [if_pos h1] at h
      exact absurd h (by simp)
    · rw [if_neg h1] at h
      rw [if_neg h1]
      by_cases h2 : framePayloadLen b > (b.drop pointHeaderSize).length % 4294967296
      · rw [if_pos h2] at h
        exact absurd h (by simp)
      · rw [if_neg h2] at h
        rw [if_neg h2]
        by_cases h3 : (frameTail b).length = 0
        · rw [if_pos h3] at h
          rw [if_pos h3]
          have hout : out = storeCreatePut σ (frameBucket b) (frameKey b) (frameData b) :=
            (Option.some.injEq _ _ ▸ h).symm
          rw [hout, sLookup_storeCreatePut]
          by_cases hb : frameBucket b = n ∧ frameKey b = k
          · have hs : n = frameBucket b ∧ k = frameKey b := ⟨hb.1.symm, hb.2.symm⟩
            rw [if_pos hs]
            simp [hb]
          · have hs : ¬(n = frameBucket b ∧ k = frameKey b) :=
              fun hc => hb ⟨hc.1.symm, hc.2.symm⟩
            rw [if_neg hs]
            simp [hb]
        · rw [if_neg h3] at h
          rw [if_neg h3]
          have hih := ih (frameTail b) _ out h n k
          cases hlw : lastFrameWriteAux f (frameTail b) n k with
          | some v =>
            rw [hlw] at hih
            exact hih
          | none =>
            rw [hlw] at hih
            rw [hih, sLookup_storeCreatePut]
            by_cases hb : frameBucket b = n ∧ frameKey b = k
            · have hs : n = frameBucket b ∧ k = frameKey b := ⟨hb.1.symm, hb.2.symm⟩
              rw [if_pos hs]
              simp [hb]
            · have hs : ¬(n = frameBucket b ∧ k = frameKey b) :=
                fun hc => hb ⟨hc.1.symm, hc.2.symm⟩
              rw [if_neg hs]
              simp [hb]

/-- Bucket presence after the loop: exactly the buckets the batch touches are
added to the existing ones. -/
theorem isSome_writeFramesAux (f : Nat) :
    ∀ (b : Bytes) (σ out : Store), writeFramesAux f b σ = some out →
      ∀ n, (out n).isSome = (touchesAux f b n || (σ n).isSome) := by
  induction f with
  | zero =>
    intro b σ out h
    exact absurd h (by simp [writeFramesAux])
  | succ f ih =>
    intro b σ out h n
    simp only [writeFramesAux] at h
    simp only [touchesAux]
    by_cases h1 : pointHeaderSize > b.length
    · rw [if_pos h1] at h
      exact absurd h (by simp)
    · rw [if_neg h1] at h
      rw [if_neg h1]
      by_cases h2 : framePayloadLen b > (b.drop pointHeaderSize).length % 4294967296
      · rw [if_pos h2] at h
        exact absurd h (by simp)
      · rw [if_neg h2] at h
        rw [if_neg h2]
        by_cases h3 : (frameTail b).length = 0
        · rw [if_pos h3] at h
          have hout : out = storeCreatePut σ (frameBucket b) (frameKey b) (frameData b) :=
            (Option.some.injEq _ _ ▸ h).symm
          rw [hout, isSome_storeCreatePut]
          by_cases hb : frameBucket b = n
          · simp [hb, h3]
          · have hn : ¬n = frameBucket b := fun hc => hb hc.symm
            simp [hb, hn, h3]
        · rw [if_neg h3] at h
          have hih := ih (frameTail b) _ out h n
          rw [hih, isSome_storeCreatePut]
          by_cases hb : frameBucket b = n
          · simp [hb, h3]
          · have hn : ¬n = frameBucket b := fun hc => hb hc.symm
            simp [hb, hn, h3, Bool.or_left_comm]

/-- A successful `writeSeries` is idempotent: replaying the same batch at the
same index over its own result commits again and reproduces the same store. -/
theorem writeSeries_replay (σ σ3 : Store) (i : Nat) (batch : Bytes)
    (h : writeSeries σ i batch = (σ3, none)) : writeSeries σ3 i batch = (σ3, none) := by
  unfold writeSeries at h ⊢
  cases hwf : writeFramesAux batch.length batch σ with
  | none =>
    rw [show writeFrames batch σ = none from hwf] at h
    simp at h
  | some out =>
    simp only [show writeFrames batch σ = some out from hwf] at h
    cases hpe : storePutExisting out metaName indexKey (u64tob i) with
    | none =>
      simp only [hpe] at h
      simp at h
    | some σp =>
      simp only [hpe] at h
      injection h with h1 h2
      have hσ3 : σ3 = σp := h1.symm
      -- the meta bucket was present in `out`
      have hbm : ∃ bm, out metaName = some bm := by
        cases hb : out metaName with
        | none =>
          unfold storePutExisting at hpe
          rw [hb] at hpe
          simp at hpe
        | some bm => exact ⟨bm, rfl⟩
      rcases hbm with ⟨bm, hb⟩
      have hσp : σp =
          fun q => if q = metaName then some (bucketPut bm indexKey (u64tob i)) else out q := by
        have hs := storePutExisting_some out metaName indexKey (u64tob i) bm hb
        rw [hs] at hpe
        exact (Option.some.injEq _ _ ▸ hpe).symm
      -- the batch parses, independently of the store
      have hparse : parseOkAux batch.length batch = true := by
        have hs := writeFramesAux_isSome batch.length batch σ
        rw [hwf] at hs
        exact hs.symm
      -- the second run of the loop also succeeds
      have h2 : (writeFramesAux batch.length batch σ3).isSome = true := by
        rw [writeFramesAux_isSome]
        exact hparse
      cases hwf2 : writeFramesAux batch.length batch σ3 with
      | none =>
        rw [hwf2] at h2
        simp at h2
      | some out2 =>
        simp only [show writeFrames batch σ3 = some out2 from hwf2]
        -- meta presence in σ3 and in out2
        have hm3 : (σ3 metaName).isSome = true := by
          rw [hσ3, hσp]
          simp
        have hmo2 : (out2 metaName).isSome = true := by
          rw [isSome_writeFramesAux batch.length batch σ3 out2 hwf2 metaName, hm3]
          simp
        have hbm2 : ∃ bm2, out2 metaName = some bm2 := by
          cases hb2 : out2 metaName with
          | none =>
            rw [hb2] at hmo2
            simp at hmo2
          | some bm2 => exact ⟨bm2, rfl⟩
        rcases hbm2 with ⟨bm2, hb2⟩
        simp only [storePutExisting_some out2 metaName indexKey (u64tob i) bm2 hb2]
        refine congrArg (fun x => (x, none)) ?_
        apply store_ext
        · intro n
          by_cases hn : n = metaName
          · subst hn
            simp [hm3]
          · simp only [if_neg hn]
            have e2 := isSome_writeFramesAux batch.length batch σ3 out2 hwf2 n
            have e1 := isSome_writeFramesAux batch.length batch σ out hwf n
            have hσ3n : (σ3 n).isSome = (out n).isSome := by
              rw [hσ3, hσp]
              simp [hn]
            rw [e2, hσ3n, e1]
            cases touchesAux batch.length batch n <;> simp
        · intro n k
          have c2 := sLookup_writeFramesAux batch.length batch σ3 out2 hwf2 n k
          have c1 := sLookup_writeFramesAux batch.length batch σ out hwf n k
          by_cases hn : n = metaName
          · subst hn
            by_cases hk : k = indexKey
            · subst hk
              have hl : sLookup
                  (fun q => if q = metaName then some (bucketPut bm2 indexKey (u64tob i))
                    else out2 q) metaName indexKey = some (u64tob i) := by
                simp [sLookup, bucketPut]
              rw [hl, hσ3, hσp]
              simp [sLookup, bucketPut]
            · have hl : sLookup
                  (fun q => if q = metaName then some (bucketPut bm2 indexKey (u64tob i))
                    else out2 q) metaName k = sLookup out2 metaName k := by
                simp [sLookup, bucketPut, hb2, hk]
              have hr : sLookup σ3 metaName k = sLookup out metaName k := by
                rw [hσ3, hσp]
                simp [sLookup, bucketPut, hb, hk]
              rw [hl, c2]
              cases hlw : lastFrameWriteAux batch.length batch metaName k with
              | some v =>
                rw [hlw] at c1
                rw [hr, c1]
              | none => rfl
          · have hl : sLookup
                (fun q => if q = metaName then some (bucketPut bm2 indexKey (u64tob i))
                  else out2 q) n k = sLookup out2 n k := by
              simp [sLookup, hn]
            have hr : sLookup σ3 n k = sLookup out n k := by
              rw [hσ3, hσp]
              simp [sLookup, hn]
            rw [hl, c2]
            cases hlw : lastFrameWriteAux batch.length batch n k with
            | some v =>
              rw [hlw] at c1
              rw [hr, c1]
            | none => rfl

/-- C1: on every malformed batch — one where parsing hits a header that does
not fit the remaining bytes or a declared payload length exceeding the
remaining bytes — `writeSeries` returns the invalid-point-buffer error and
the returned store is exactly the input store: no frame of the batch (well-
formed leading frames included) is committed and `meta/index` is unchanged. -/
theorem writeSeries_malformed_rolls_back :
    ∀ (σ : Store) (index : Nat) (batch : Bytes), parseOk batch = false →
      writeSeries σ index batch = (σ, some WriteError.invalidPointBuffer) := by
  intro σ i batch hp
  have h2 : writeFrames batch σ = none := by
    cases hw : writeFramesAux batch.length batch σ with
    | none => exact hw
    | some out =>
      have hs := writeFramesAux_isSome batch.length batch σ
      rw [hw] at hs
      unfold parseOk at hp
      rw [hp] at hs
      simp at hs
  unfold writeSeries
  rw [h2]

/-- Witness for C1: the spec's scenario — a batch whose second frame declares
payload length 100 with one byte remaining — is rejected and rolls back. -/
theorem writeSeries_malformed_rolls_back_witness :
    writeSeries emptyStore 9 batchBadEx = (emptyStore, some WriteError.invalidPointBuffer) :=
  writeSeries_malformed_rolls_back emptyStore 9 batchBadEx (by decide)

/-- C2: a message the processor accepts (stale or applied) is idempotent:
processing it again from the resulting state reproduces exactly that state
(same store contents, same index), and the index never regresses; a message
whose index is strictly below the shard's current index is discarded with the
state — store included — untouched. -/
theorem processMessage_idempotent_replay :
    (∀ (s s2 : ProcState) (m : Message), processMessage s m = some s2 →
        processMessage s2 m = some s2 ∧ s.index ≤ s2.index) ∧
      ∀ (s : ProcState) (m : Message), m.index < s.index → processMessage s m = some s := by
  constructor
  · intro s s2 m h
    refine ⟨?_, processMessage_index_le s s2 m h⟩
    rcases processMessage_cases s s2 m h with ⟨he, hlt⟩ | ⟨hge, ht, σ2, hw, he⟩
    · subst he
      unfold processMessage
      rw [if_pos hlt]
    · subst he
      unfold processMessage
      rw [if_neg (show ¬m.index < m.index from Nat.lt_irrefl m.index), if_pos ht]
      simp only [writeSeries_replay s.store σ2 m.index m.data hw]
  · intro s m hlt
    unfold processMessage
    rw [if_pos hlt]

/-- Witness for C2: applying `msgEx` to the already-caught-up state `procEx2`
(which `procEx` reaches by processing `msgEx` once) reproduces `procEx2`. -/
theorem processMessage_idempotent_replay_witness :
    processMessage procEx2 msgEx = some procEx2 ∧ procEx.index ≤ procEx2.index :=
  processMessage_idempotent_replay.1 procEx procEx2 msgEx rfl

/-! Open/close lifecycle lemmas. -/

/-- The index the init transaction recovers: the decoded `meta/index` value
when present and non-empty, 0 otherwise (creating the `values` and `meta`
buckets does not affect the read). -/
theorem recoverIndex_idx (σ : Store) :
    (recoverIndex σ).2 =
      match sLookup σ metaName indexKey with
      | some buf => if buf.length > 0 then btou64 buf else 0
      | none => 0 := by
  have hne : ¬(metaName = valuesName) := by decide
  have h : sLookup
      (storeCreateBucketIfNotExists (storeCreateBucketIfNotExists σ valuesName) metaName)
      metaName indexKey = sLookup σ metaName indexKey := by
    simp only [sLookup, storeCreateBucketIfNotExists, if_pos rfl, if_neg hne]
    cases hσ : σ metaName <;> simp
  simp only [recoverIndex]
  rw [h]

/-- C4: a successful `open` on a store whose `meta` bucket maps `index` to the
8-byte big-endian encoding of `N` sets the in-memory index to `N` and calls
`conn.Open` exactly once, with that index and `fromStart = true`; when the key
is absent or empty the recovered index is 0 and `conn.Open` is called with 0. -/
theorem shardOpen_recovers_index :
    (∀ (s : Shard) (env : OpenEnv) (σ0 : Store) (N : Nat),
        s.store = none → env.boltOpen = Except.ok σ0 → env.initErr = none →
        N < 18446744073709551616 →
        sLookup σ0 metaName indexKey = some (u64tob N) →
        env.connOpen N true = none →
        (shardOpen s env).err = none ∧ (shardOpen s env).shard.index = N ∧
          (shardOpen s env).connCalls = [(N, true)]) ∧
      ∀ (s : Shard) (env : OpenEnv) (σ0 : Store),
        s.store = none → env.boltOpen = Except.ok σ0 → env.initErr = none →
        (sLookup σ0 metaName indexKey = none ∨ sLookup σ0 metaName indexKey = some []) →
        env.connOpen 0 true = none →
        (shardOpen s env).err = none ∧ (shardOpen s env).shard.index = 0 ∧
          (shardOpen s env).connCalls = [(0, true)] := by
  constructor
  · intro s env σ0 N h1 h2 h3 hN hidx hconn
    have hlen : (u64tob N).length > 0 := by simp [u64tob]
    have hr2 : (recoverIndex σ0).2 = N := by
      rw [recoverIndex_idx, hidx]
      show (if List.length (u64tob N) > 0 then btou64 (u64tob N) else 0) = N
      rw [if_pos hlen, btou64_u64tob N hN]
    simp only [shardOpen, h1, h2, h3, hr2, hconn]
    exact ⟨trivial, trivial, trivial⟩
  · intro s env σ0 h1 h2 h3 hidx hconn
    have hr2 : (recoverIndex σ0).2 = 0 := by
      rcases hidx with hi | hi
      · rw [recoverIndex_idx, hi]
      · rw [recoverIndex_idx, hi]
        rfl
    simp only [shardOpen, h1, h2, h3, hr2, hconn]
    exact ⟨trivial, trivial, trivial⟩

/-- Witness for C4: reopening over a store persisting index 42 recovers 42
and asks the broker to resume from 42. -/
theorem shardOpen_recovers_index_witness :
    (shardOpen newShard envEx).err = none ∧ (shardOpen newShard envEx).shard.index = 42 ∧
      (shardOpen newShard envEx).connCalls = [(42, true)] :=
  shardOpen_recovers_index.1 newShard envEx σmetaIdxEx 42 rfl rfl rfl (by decide)
    (by decide) rfl

/-- C8: `open` on a shard that already holds a store handle returns the
already-open error without modifying the shard; and when `open` fails after
the store was acquired — init-transaction failure or broker-connection
failure — it returns an error with the store handle closed (no open handle
is left behind). -/
theorem shardOpen_error_paths :
    (∀ (s : Shard) (env : OpenEnv) (h : StoreHandle), s.store = some h →
        shardOpen s env =
          { shard := s, err := some "shard already open", connCalls := [] }) ∧
      (∀ (s : Shard) (env : OpenEnv) (σ0 : Store) (e : String),
          s.store = none → env.boltOpen = Except.ok σ0 → env.initErr = some e →
          ((shardOpen s env).err).isSome = true ∧
            (shardOpen s env).shard.store.map StoreHandle.isOpen = some false) ∧
      ∀ (s : Shard) (env : OpenEnv) (σ0 : Store) (e : String),
        s.store = none → env.boltOpen = Except.ok σ0 → env.initErr = none →
        env.connOpen (recoverIndex σ0).2 true = some e →
        ((shardOpen s env).err).isSome = true ∧
          (shardOpen s env).shard.store.map StoreHandle.isOpen = some false := by
  refine ⟨?_, ?_, ?_⟩
  · intro s env h hs
    simp only [shardOpen, hs]
  · intro s env σ0 e h1 h2 h3
    simp only [shardOpen, h1, h2, h3, shardClose]
    simp
  · intro s env σ0 e h1 h2 h3 hc
    simp only [shardOpen, h1, h2, h3, hc, shardClose]
    simp

/-- Witness for C8: opening an already-open shard errors and changes nothing. -/
theorem shardOpen_error_paths_witness :
    shardOpen openShardEx envEx =
      { shard := openShardEx, err := some "shard already open", connCalls := [] } :=
  shardOpen_error_paths.1 openShardEx envEx { contents := σmetaEx, isOpen := true } rfl

/-- C10: `close` always returns nil and never clears the shard's store field
(the field keeps referring to the same store contents); every `open` on a
shard whose store field is set — which includes any shard whose earlier open
got past acquiring the handle, whether that open later failed and unwound via
`close` or the shard was cleanly closed — returns the already-open error, so
`close` never returns a shard to a reopenable state. -/
theorem shardClose_keeps_store_field :
    (∀ s : Shard, (shardClose s).2 = none) ∧
      (∀ s : Shard, ((shardClose s).1).store.isSome = s.store.isSome ∧
          ((shardClose s).1).store.map StoreHandle.contents =
            s.store.map StoreHandle.contents) ∧
      (∀ (s : Shard) (env : OpenEnv), s.store.isSome = true →
          shardOpen s env =
            { shard := s, err := some "shard already open", connCalls := [] }) ∧
      ∀ (s : Shard) (env : OpenEnv) (σ0 : Store), s.store = none →
        env.boltOpen = Except.ok σ0 → ((shardOpen s env).shard.store).isSome = true := by
  refine ⟨?_, ?_, ?_, ?_⟩
  · intro s
    cases hs : s.store <;> simp [shardClose, hs]
  · intro s
    cases hs : s.store <;> simp [shardClose, hs]
  · intro s env hs
    cases h : s.store with
    | none =>
      rw [h] at hs
      simp at hs
    | some hd => simp only [shardOpen, h]
  · intro s env σ0 h1 h2
    simp only [shardOpen, h1, h2]
    cases h3 : env.initErr with
    | some e => simp [shardClose]
    | none =>
      cases hc : env.connOpen (recoverIndex σ0).2 true with
      | some e => simp [shardClose]
      | none => simp

/-- Witness for C10: a failed open (init-commit failure) still leaves the
store field set, so the shard is not reopenable. -/
theorem shardClose_keeps_store_field_witness :
    ((shardOpen newShard envFailEx).shard.store).isSome = true :=
  shardClose_keeps_store_field.2.2.2 newShard envFailEx σmetaIdxEx rfl rfl

end Influx
